import Mathlib

/-!
Shallow embedding of `src/hw_01.py` (a command-line contact manager built on
`Field`/`Name`/`Phone`/`Birthday`, `Record`, `AddressBook`, and a set of
`@input_error`-wrapped command handlers), together with proofs about the
claims of the specification.

Modelling conventions:
* Python strings are Lean `String`s (lists of characters); the character
  class `\d` of the `re` module is modelled on the ASCII range as
  `Char.isDigit`.
* `datetime.date` values are `PyDate` triples; `date.toordinal`,
  `date.replace`, comparison and subtraction are modelled by the standard
  proleptic-Gregorian formulas that CPython itself uses.
* Exceptions are modelled with `Except String`, the carried string being
  `str(e)` of the raised exception.  Functions that mutate an object and can
  also raise return a pair `(Except String _) × state`, so that mutations
  performed before a raise are kept, exactly as for Python objects.
* `dict` is modelled as an association list in insertion order; assigning to
  an existing key updates the entry in place, assigning a fresh key appends.
* `datetime.now()` is modelled by passing `today` explicitly.
-/

deriving instance DecidableEq for Except

namespace HW01

/-- One character of the ASCII digit range; Python's `\d` restricted to
ASCII, which is the alphabet all modelled inputs range over. -/
def isPyDigit (c : Char) : Bool := c.isDigit

/-- Numeric value of an ASCII digit character (`int(c)`). -/
def digv (c : Char) : Nat := c.toNat - 48

/-- The ASCII digit character of a value `n ≤ 9`. -/
def digitChar (n : Nat) : Char := Char.ofNat (48 + n)

/-- `re.match(r'^\d{10}$', value)` as a Boolean: ten digits followed by the
end of the string, where, per the documented semantics of `$` (without
`re.MULTILINE`), the end may also be just before a single trailing newline. -/
def matchTenDigits (cs : List Char) : Bool :=
  (cs.length == 10 && cs.all isPyDigit) ||
  (cs.length == 11 && (cs.take 10).all isPyDigit && (cs.getLast? == some '\n'))

/-- `Phone.__init__`: validates with `re.match(r'^\d{10}$', value)` and stores
the original string; `str(Phone)` returns the stored value unchanged. -/
def phoneInit (value : String) : Except String String :=
  if matchTenDigits value.toList then Except.ok value
  else Except.error "Phone number must be 10 digits long"

/-- A `datetime.date`: year, month, day. -/
structure PyDate where
  year : Nat
  month : Nat
  day : Nat
deriving DecidableEq, Repr

/-- Gregorian leap-year rule, as in `calendar.isleap` / `datetime`. -/
def isLeap (y : Nat) : Bool := y % 4 == 0 && (y % 100 != 0 || y % 400 == 0)

/-- Number of days of month `m` of year `y` (defined for `1 ≤ m ≤ 12`;
`datetime` checks the month range before ever consulting this). -/
def daysInMonth (y m : Nat) : Nat :=
  if m = 2 then (if isLeap y then 29 else 28)
  else if m = 4 ∨ m = 6 ∨ m = 9 ∨ m = 11 then 30
  else 31

/-- `y/m/d` names an actual `datetime.date` (CPython restricts years to
`1..9999`). -/
def validDate (y m d : Nat) : Bool :=
  (1 ≤ y && y ≤ 9999) && (1 ≤ m && m ≤ 12) && (1 ≤ d && d ≤ daysInMonth y m)

/-- The `date(y, m, d)` constructor with CPython's checks in CPython's order;
`date.replace` funnels through the same checks. -/
def dateNew (y m d : Nat) : Except String PyDate :=
  if y < 1 ∨ 9999 < y then Except.error ("year " ++ toString y ++ " is out of range")
  else if m < 1 ∨ 12 < m then Except.error "month must be in 1..12"
  else if d < 1 ∨ daysInMonth y m < d then Except.error "day is out of range for month"
  else Except.ok ⟨y, m, d⟩

/-- `d.replace(year=y)`: same month and day, new year, revalidated. -/
def dateReplaceYear (d : PyDate) (y : Nat) : Except String PyDate :=
  dateNew y d.month d.day

/-- `date.__lt__`: lexicographic comparison of (year, month, day). -/
def dateLt (a b : PyDate) : Bool :=
  a.year < b.year ||
    (a.year == b.year &&
      (a.month < b.month || (a.month == b.month && a.day < b.day)))

/-- Days before year `y` in the proleptic Gregorian calendar
(`datetime._days_before_year`). -/
def daysBeforeYear (y : Nat) : Nat :=
  let n := y - 1
  365 * n + n / 4 - n / 100 + n / 400

/-- Sum of the lengths of the first `k` months of year `y`. -/
def monthsSum (y : Nat) : Nat → Nat
  | 0 => 0
  | k + 1 => monthsSum y k + daysInMonth y (k + 1)

/-- `date.toordinal`: day number with 0001-01-01 as day 1; date subtraction
`(a - b).days` is the difference of ordinals. -/
def toOrdinal (d : PyDate) : Nat :=
  daysBeforeYear d.year + monthsSum d.year (d.month - 1) + d.day

/-- Two-character zero-padded decimal rendering (`%02d`), as a char list. -/
def pad2c (n : Nat) : List Char := [digitChar (n / 10), digitChar (n % 10)]

/-- Four-character zero-padded decimal rendering (`%04d`), as a char list. -/
def pad4c (n : Nat) : List Char :=
  [digitChar (n / 1000), digitChar (n / 100 % 10), digitChar (n / 10 % 10), digitChar (n % 10)]

/-- `str(date)` = `date.isoformat()`: `YYYY-MM-DD`, zero padded. -/
def dateIso (d : PyDate) : String :=
  String.mk (pad4c d.year ++ '-' :: pad2c d.month ++ '-' :: pad2c d.day)

/-- `Birthday.__str__` = `strftime("%d.%m.%Y")`: `DD.MM.YYYY`, with the
zero-padded field widths documented for the format codes. -/
def renderDMY (b : PyDate) : String :=
  String.mk (pad2c b.day ++ '.' :: pad2c b.month ++ '.' :: pad4c b.year)

/-- The string `DD.MM.YYYY` built from numeric day/month/year values; every
string of that shape arises this way. -/
def dmyString (d m y : Nat) : String :=
  String.mk (pad2c d ++ '.' :: pad2c m ++ '.' :: pad4c y)

/-- First hit of a list of regex-alternation candidates: the backtracking
order of `re` alternation, leftmost alternative first. -/
def firstSome {α β : Type} (f : α → Option β) : List α → Option β
  | [] => none
  | a :: rest =>
    match f a with
    | some v => some v
    | none => firstSome f rest

/-- The `strptime` alternatives for `%d`, regex `(3[01]|[12]\d|0[1-9]|[1-9])`:
each entry is a matched day value with the remaining input. -/
def dayAlts : List Char → List (Nat × List Char)
  | c1 :: c2 :: rest =>
    (if c1 = '3' ∧ (c2 = '0' ∨ c2 = '1') then [(30 + digv c2, rest)] else []) ++
    (if (c1 = '1' ∨ c1 = '2') ∧ isPyDigit c2 = true then [(10 * digv c1 + digv c2, rest)] else []) ++
    (if c1 = '0' ∧ ('1' ≤ c2 ∧ c2 ≤ '9') then [(digv c2, rest)] else []) ++
    (if '1' ≤ c1 ∧ c1 ≤ '9' then [(digv c1, c2 :: rest)] else [])
  | [c1] => if '1' ≤ c1 ∧ c1 ≤ '9' then [(digv c1, [])] else []
  | [] => []

/-- The `strptime` alternatives for `%m`, regex `(1[0-2]|0[1-9]|[1-9])`. -/
def monthAlts : List Char → List (Nat × List Char)
  | c1 :: c2 :: rest =>
    (if c1 = '1' ∧ (c2 = '0' ∨ c2 = '1' ∨ c2 = '2') then [(10 + digv c2, rest)] else []) ++
    (if c1 = '0' ∧ ('1' ≤ c2 ∧ c2 ≤ '9') then [(digv c2, rest)] else []) ++
    (if '1' ≤ c1 ∧ c1 ≤ '9' then [(digv c1, c2 :: rest)] else [])
  | [c1] => if '1' ≤ c1 ∧ c1 ≤ '9' then [(digv c1, [])] else []
  | [] => []

/-- The `strptime` regex for `%Y` (`\d\d\d\d`), which must also consume the
whole remaining input (`strptime` raises on unconverted trailing data). -/
def yearNum : List Char → Option Nat
  | [a, b, c, d] =>
    if isPyDigit a = true ∧ isPyDigit b = true ∧ isPyDigit c = true ∧ isPyDigit d = true then
      some (1000 * digv a + 100 * digv b + 10 * digv c + digv d)
    else none
  | _ => none

/-- After the second literal dot of the format: match `%Y`. -/
def parseY (d m : Nat) (cs : List Char) : Option (Nat × Nat × Nat) :=
  match cs with
  | c :: cs2 => if c = '.' then (yearNum cs2).map (fun y => (d, m, y)) else none
  | [] => none

/-- After a matched day: the literal dot, then the `%m` alternatives, then
the rest of the format. -/
def parseYM (d : Nat) (cs : List Char) : Option (Nat × Nat × Nat) :=
  match cs with
  | c :: cs2 =>
    if c = '.' then firstSome (fun pm => parseY d pm.1 pm.2) (monthAlts cs2) else none
  | [] => none

/-- `datetime.strptime(s, "%d.%m.%Y")` up to the numeric field values: the
compiled regex `(%d)\.(%m)\.(%Y)` anchored at the start, required to consume
the whole string.  (For this format the alternation branches are mutually
exclusive on overall success, so searching all backtracking alternatives for
a full match coincides with Python's first-match-then-length-check.) -/
def parseDMY (s : String) : Option (Nat × Nat × Nat) :=
  firstSome (fun pd => parseYM pd.1 pd.2) (dayAlts s.toList)

/-- `Birthday.__init__`: `strptime("%d.%m.%Y").date()`, with every
`ValueError` (bad format or impossible calendar date) replaced by the fixed
message. -/
def birthdayInit (value : String) : Except String PyDate :=
  match parseDMY value with
  | none => Except.error "Invalid date format. Use DD.MM.YYYY"
  | some (d, m, y) =>
    match dateNew y m d with
    | Except.ok dt => Except.ok dt
    | Except.error _ => Except.error "Invalid date format. Use DD.MM.YYYY"

/-- A `Record`: one name, the ordered phone list, an optional birthday.
Phones are stored as their validated string values (a `Phone` is just its
`value`). -/
structure Record where
  name : String
  phones : List String
  birthday : Option PyDate
deriving DecidableEq, Repr

/-- `Record.__init__`: `Name(name)` rejects the empty string (`if not value`),
then the record starts with no phones and no birthday. -/
def recordInit (name : String) : Except String Record :=
  if name = "" then Except.error "Name cannot be empty"
  else Except.ok { name := name, phones := [], birthday := none }

/-- `Record.add_phone`: validates through `Phone(...)` and appends; on a
validation error nothing has been appended yet, so the record is unchanged. -/
def Record.add_phone (r : Record) (phone : String) : (Except String Unit) × Record :=
  match phoneInit phone with
  | Except.ok v => (Except.ok (), { r with phones := r.phones ++ [v] })
  | Except.error e => (Except.error e, r)

/-- Remove the first occurrence of `p` (Python `list.remove` after a `next`
search); no-op when absent. -/
def removeFirst : List String → String → List String
  | [], _ => []
  | q :: rest, p => if q = p then rest else q :: removeFirst rest p

/-- `Record.remove_phone`: drop the first phone whose value equals `phone`;
silently does nothing when there is none. -/
def Record.remove_phone (r : Record) (phone : String) : Record :=
  { r with phones := removeFirst r.phones phone }

/-- `Record.edit_phone`: when a phone equal to `old_phone` exists, remove it
and then `add_phone new_phone` (so a failed validation of `new_phone` leaves
the old phone already removed); silently does nothing when absent. -/
def Record.edit_phone (r : Record) (old_phone new_phone : String) :
    (Except String Unit) × Record :=
  if r.phones.contains old_phone then
    (r.remove_phone old_phone).add_phone new_phone
  else (Except.ok (), r)

/-- `Record.find_phone`: the stored value equal to `phone`, or `None`. -/
def Record.find_phone (r : Record) (phone : String) : Option String :=
  r.phones.find? (fun p => p == phone)

/-- `Record.add_birthday`: sets/overwrites the birthday unconditionally. -/
def Record.add_birthday (r : Record) (birthday : PyDate) : Record :=
  { r with birthday := some birthday }

/-- `Record.__str__`. -/
def recordLine (r : Record) : String :=
  "Contact name: " ++ r.name ++ ", phones: " ++ String.intercalate "; " r.phones ++
    ", birthday: " ++ (match r.birthday with
      | some b => renderDMY b
      | none => "No birthday")

/-- `AddressBook.data`: a `dict` in insertion order, keys unique. -/
abbrev Book := List (String × Record)

/-- `self.data[key] = value` on a `dict` with unique keys: update the entry
in place when the key exists, append a new entry otherwise. -/
def dictSet : Book → String → Record → Book
  | [], k, r => [(k, r)]
  | (k', r') :: rest, k, r =>
    if k' = k then (k, r) :: rest else (k', r') :: dictSet rest k r

/-- `AddressBook.add_record`: keyed by `record.name.value`, overwriting. -/
def add_record (book : Book) (record : Record) : Book :=
  dictSet book record.name record

/-- `AddressBook.find` = `self.data.get(name)`. -/
def find (book : Book) (name : String) : Option Record :=
  match book with
  | [] => none
  | (k, r) :: rest => if k = name then some r else find rest name

/-- `AddressBook.delete`: `del self.data[name]` when present, else no-op. -/
def delete (book : Book) (name : String) : Book :=
  match book with
  | [] => []
  | (k, r) :: rest => if k = name then rest else (k, r) :: delete rest name

/-- One result entry of `get_upcoming_birthdays` (the dict with keys
`name` / `birthday` / `days_until_birthday`; `birthday` is `str(next_birthday)`,
an ISO date). -/
structure BEntry where
  name : String
  birthday : String
  days_until_birthday : Int
deriving DecidableEq, Repr

/-- The loop body of `AddressBook.get_upcoming_birthdays`: for each record
with a birthday, `replace(year=today.year)`, roll to next year when already
past, keep entries whose day offset lies in `[0, 6]`; a `ValueError` from
either `replace` propagates. -/
def upcomingLoop (today : PyDate) : Book → Except String (List BEntry)
  | [] => Except.ok []
  | (_, record) :: rest =>
    match record.birthday with
    | none => upcomingLoop today rest
    | some b =>
      match dateReplaceYear b today.year with
      | Except.error e => Except.error e
      | Except.ok nb0 =>
        match (if dateLt nb0 today then dateReplaceYear nb0 (today.year + 1)
               else Except.ok nb0) with
        | Except.error e => Except.error e
        | Except.ok nb =>
          match upcomingLoop today rest with
          | Except.error e => Except.error e
          | Except.ok entries =>
            let days : Int := (toOrdinal nb : Int) - (toOrdinal today : Int)
            if 0 ≤ days ∧ days ≤ 6 then
              Except.ok (⟨record.name, dateIso nb, days⟩ :: entries)
            else Except.ok entries

/-- `AddressBook.get_upcoming_birthdays`, with `datetime.now().date()` passed
in as `today`. -/
def get_upcoming_birthdays (today : PyDate) (book : Book) : Except String (List BEntry) :=
  upcomingLoop today book

/-- `AddressBook.__str__`. -/
def bookStr (book : Book) : String :=
  String.intercalate "\n" (book.map fun kv => recordLine kv.2)

/-- The body of a handler before the `@input_error` decorator: the normal
return value or the raised exception's `str`, together with the book state
(mutations performed before a raise are kept). -/
abbrev HandlerBody := List String → Book → (Except String String) × Book

/-- The `@input_error` decorator: run the body and turn any raised exception
into its message, returned as the result string. -/
def input_error (func : HandlerBody) (args : List String) (book : Book) : String × Book :=
  match func args book with
  | (Except.ok s, b) => (s, b)
  | (Except.error e, b) => (e, b)

/-- Body of handler `add`: fewer than two arguments give the usage string
before the 2-tuple unpacking; more than two make `name, phone = args` raise.
An existing name gets the phone appended, a fresh name gets a new record. -/
def addBody : HandlerBody := fun args book =>
  match args with
  | [name, phone] =>
    match find book name with
    | some r =>
      match r.add_phone phone with
      | (Except.ok _, r') =>
        (Except.ok ("Phone " ++ phone ++ " added to " ++ name ++ "."), dictSet book name r')
      | (Except.error e, _) => (Except.error e, book)
    | none =>
      match recordInit name with
      | Except.error e => (Except.error e, book)
      | Except.ok r0 =>
        match r0.add_phone phone with
        | (Except.ok _, r1) =>
          (Except.ok ("Contact " ++ name ++ " with phone " ++ phone ++ " added."),
            add_record book r1)
        | (Except.error e, _) => (Except.error e, book)
  | _ =>
    if args.length < 2 then (Except.ok "Usage: add [name] [phone]", book)
    else (Except.error "too many values to unpack (expected 2)", book)

/-- Handler `add` (wrapped). -/
def add (args : List String) (book : Book) : String × Book :=
  input_error addBody args book

/-- Body of handler `change`: arity check, lookup, then `edit_phone` (whose
partial mutation on a failed new-phone validation is kept in the book). -/
def changeBody : HandlerBody := fun args book =>
  match args with
  | [name, old_phone, new_phone] =>
    match find book name with
    | some r =>
      match r.edit_phone old_phone new_phone with
      | (Except.ok _, r') =>
        (Except.ok ("Phone " ++ old_phone ++ " changed to " ++ new_phone ++ " for " ++
          name ++ "."), dictSet book name r')
      | (Except.error e, r') => (Except.error e, dictSet book name r')
    | none => (Except.ok "Contact not found.", book)
  | _ =>
    if args.length < 3 then
      (Except.ok "Usage: change [name] [old phone] [new phone]", book)
    else (Except.error "too many values to unpack (expected 3)", book)

/-- Handler `change` (wrapped). -/
def change (args : List String) (book : Book) : String × Book :=
  input_error changeBody args book

/-- Body of handler `phone`: `args[0]` raises `IndexError` on an empty list. -/
def phoneBody : HandlerBody := fun args book =>
  match args with
  | [] => (Except.error "list index out of range", book)
  | name :: _ =>
    match find book name with
    | some r =>
      (Except.ok ("Phones for " ++ name ++ ": " ++ String.intercalate ", " r.phones), book)
    | none => (Except.ok "Contact not found.", book)

/-- Handler `phone` (wrapped). -/
def phone (args : List String) (book : Book) : String × Book :=
  input_error phoneBody args book

/-- Body of handler `all` (`all_contacts` in the source). -/
def all_contactsBody : HandlerBody := fun _args book =>
  (Except.ok (if book = [] then "Address book is empty." else bookStr book), book)

/-- Handler `all` (wrapped). -/
def all_contacts (args : List String) (book : Book) : String × Book :=
  input_error all_contactsBody args book

/-- Body of handler `add-birthday`: `name, date_str = args` unpacks before
any arity check, so a wrong count raises; a `Birthday` validation error is
caught by the handler's own `try` and returned as a normal result. -/
def add_birthdayBody : HandlerBody := fun args book =>
  match args with
  | [name, date_str] =>
    match find book name with
    | none => (Except.ok "Contact not found.", book)
    | some r =>
      match birthdayInit date_str with
      | Except.ok b =>
        (Except.ok ("Birthday added for " ++ name ++ "."), dictSet book name (r.add_birthday b))
      | Except.error e => (Except.ok e, book)
  | _ =>
    if args.length < 2 then
      (Except.error ("not enough values to unpack (expected 2, got " ++
        toString args.length ++ ")"), book)
    else (Except.error "too many values to unpack (expected 2)", book)

/-- Handler `add-birthday` (wrapped). -/
def add_birthday (args : List String) (book : Book) : String × Book :=
  input_error add_birthdayBody args book

/-- Body of handler `show-birthday`. -/
def show_birthdayBody : HandlerBody := fun args book =>
  match args with
  | [] => (Except.error "list index out of range", book)
  | name :: _ =>
    match find book name with
    | none => (Except.ok "Contact not found.", book)
    | some r =>
      (Except.ok (match r.birthday with
        | some b => name ++ "\x27s birthday is " ++ renderDMY b
        | none => name ++ " has no birthday set."), book)

/-- Handler `show-birthday` (wrapped). -/
def show_birthday (args : List String) (book : Book) : String × Book :=
  input_error show_birthdayBody args book

/-- Body of handler `birthdays`: a `ValueError` escaping
`get_upcoming_birthdays` propagates to the decorator. -/
def birthdaysBody (today : PyDate) : HandlerBody := fun _args book =>
  match get_upcoming_birthdays today book with
  | Except.error e => (Except.error e, book)
  | Except.ok [] => (Except.ok "No upcoming birthdays in the next 7 days.", book)
  | Except.ok entries =>
    (Except.ok (String.intercalate "\n"
      (entries.map fun en => "Name: " ++ en.name ++ ", Birthday: " ++ en.birthday)), book)

/-- Handler `birthdays` (wrapped). -/
def birthdays (today : PyDate) (args : List String) (book : Book) : String × Book :=
  input_error (birthdaysBody today) args book

/-! ## Spec-side and proof-support definitions -/

/-- The phone rule as the spec words it: exactly ten decimal digits and
nothing else. -/
def specTenDigits (s : String) : Bool :=
  s.toList.length == 10 && s.toList.all isPyDigit

/-- `Record("John")` as constructed by `recordInit`. -/
def johnStart : Record := ⟨"John", [], none⟩

/-- John's record after `add_phone("1234567890")`, `add_phone("5555555555")`
and `add_birthday(Birthday("10.08.1990"))`. -/
def johnRec : Record :=
  (((johnStart.add_phone "1234567890").2.add_phone "5555555555").2.add_birthday ⟨1990, 8, 10⟩)

/-- John's record after `edit_phone("1234567890", "1112223333")`. -/
def johnEdited : Record := (johnRec.edit_phone "1234567890" "1112223333").2

/-- A wrapped handler agrees with its body: the body's normal result when no
exception was raised, the exception's message otherwise — and in both cases
it is a plain string (no exception escapes). -/
def convertsErrors (wrapped : List String → Book → String × Book) (body : HandlerBody) : Prop :=
  ∀ args book,
    (∀ s b, body args book = (Except.ok s, b) → wrapped args book = (s, b)) ∧
    (∀ e b, body args book = (Except.error e, b) → wrapped args book = (e, b))

/-- The keys of the book, in insertion order. -/
def keys (book : Book) : List String := book.map Prod.fst

/-- The operations that touch a book: the `AddressBook` methods and every
wrapped command handler. -/
inductive Op where
  | addRec : Record → Op
  | del : String → Op
  | doFind : String → Op
  | hAdd : List String → Op
  | hChange : List String → Op
  | hPhone : List String → Op
  | hAll : List String → Op
  | hAddBirthday : List String → Op
  | hShowBirthday : List String → Op
  | hBirthdays : PyDate → List String → Op

/-- Apply one operation to the book; queries leave it unchanged, handlers
yield their resulting book state. -/
def applyOp (book : Book) : Op → Book
  | Op.addRec r => add_record book r
  | Op.del n => delete book n
  | Op.doFind _ => book
  | Op.hAdd args => (add args book).2
  | Op.hChange args => (change args book).2
  | Op.hPhone args => (phone args book).2
  | Op.hAll args => (all_contacts args book).2
  | Op.hAddBirthday args => (add_birthday args book).2
  | Op.hShowBirthday args => (show_birthday args book).2
  | Op.hBirthdays today args => (birthdays today args book).2

/-- The invariant: every stored record's name equals its key. -/
def InvB (book : Book) : Bool := book.all fun kv => kv.2.name == kv.1

/-- Every stored birthday keeps its month/day representable in this year and
the next (rules out the Feb-29 `ValueError` of claim C9). -/
def okRollover (today : PyDate) (book : Book) : Bool :=
  book.all fun kv =>
    match kv.2.birthday with
    | some b => validDate today.year b.month b.day && validDate (today.year + 1) b.month b.day
    | none => true

/-- As the spec words it: the birthday's next occurrence on or after today —
this year's month/day, rolled to next year when this year's date has already
passed. -/
def specNextOccurrence (today b : PyDate) : PyDate :=
  if dateLt ⟨today.year, b.month, b.day⟩ today then ⟨today.year + 1, b.month, b.day⟩
  else ⟨today.year, b.month, b.day⟩

/-- Days from today until the next occurrence of the birthday. -/
def specDaysUntil (today b : PyDate) : Int :=
  (toOrdinal (specNextOccurrence today b) : Int) - (toOrdinal today : Int)

/-- The selection the spec describes: exactly the records with a birthday
whose next occurrence is 0..6 days away, in book order, with the computed
next-occurrence date and the day offset. -/
def specUpcomingList (today : PyDate) (book : Book) : List BEntry :=
  book.filterMap fun kv =>
    match kv.2.birthday with
    | none => none
    | some b =>
      if 0 ≤ specDaysUntil today b ∧ specDaysUntil today b ≤ 6 then
        some ⟨kv.2.name, dateIso (specNextOccurrence today b), specDaysUntil today b⟩
      else none

/-! ## Phone validation (claim C1) -/

lemma matchTenDigits_iff (cs : List Char) :
    matchTenDigits cs = true ↔
      (cs.length = 10 ∧ cs.all isPyDigit = true) ∨
      (∃ ds, cs = ds ++ ['\n'] ∧ ds.length = 10 ∧ ds.all isPyDigit = true) := by
  unfold matchTenDigits
  simp only [Bool.or_eq_true, Bool.and_eq_true, beq_iff_eq]
  constructor
  · rintro (⟨h10, hall⟩ | ⟨⟨h11, htake⟩, hlast⟩)
    · exact Or.inl ⟨h10, hall⟩
    · refine Or.inr ⟨cs.dropLast, ?_, ?_, ?_⟩
      · exact (List.dropLast_append_getLast? '\n' hlast).symm
      · simp [List.length_dropLast, h11]
      · rw [List.dropLast_eq_take, h11]
        exact htake
  · rintro (⟨h10, hall⟩ | ⟨ds, hds, hlen, hall⟩)
    · exact Or.inl ⟨h10, hall⟩
    · subst hds
      refine Or.inr ⟨⟨?_, ?_⟩, ?_⟩
      · simp [hlen]
      · rw [List.take_left' hlen]; exact hall
      · exact List.getLast?_concat ds

/-- C1, counterexample: the string of ten digits followed by a newline is not
"exactly ten decimal digits, nothing else", yet `Phone` construction accepts
it (Python's `$` also matches just before a trailing newline) and stores it
verbatim. -/
theorem phone_newline_counterexample :
    specTenDigits "1234567890\n" = false ∧
    phoneInit "1234567890\n" = Except.ok "1234567890\n" := by
  constructor
  · decide
  · decide

/-- C1 (amended): constructing a `Phone` with `p` succeeds iff `p` is ten
decimal digits optionally followed by one trailing newline (the documented
behaviour of `$` in Python's `re`); on success the stored rendering is `p`
unchanged, and otherwise construction fails with the `ValidationError`
message. -/
theorem phone_validation_amended (s : String) :
    ((∃ v, phoneInit s = Except.ok v) ↔
      (s.toList.length = 10 ∧ s.toList.all isPyDigit = true) ∨
      (∃ ds, s.toList = ds ++ ['\n'] ∧ ds.length = 10 ∧ ds.all isPyDigit = true)) ∧
    (∀ v, phoneInit s = Except.ok v → v = s) ∧
    (¬((s.toList.length = 10 ∧ s.toList.all isPyDigit = true) ∨
        (∃ ds, s.toList = ds ++ ['\n'] ∧ ds.length = 10 ∧ ds.all isPyDigit = true)) →
      phoneInit s = Except.error "Phone number must be 10 digits long") := by
  have hiff := matchTenDigits_iff s.toList
  by_cases h : matchTenDigits s.toList = true
  · have hcond := hiff.mp h
    have hok : phoneInit s = Except.ok s := by
      unfold phoneInit; rw [if_pos h]
    refine ⟨⟨fun _ => hcond, fun _ => ⟨s, hok⟩⟩, fun v hv => ?_, fun hn => absurd hcond hn⟩
    rw [hok] at hv
    injection hv with h'
    exact h'.symm
  · have hncond : ¬((s.toList.length = 10 ∧ s.toList.all isPyDigit = true) ∨
        (∃ ds, s.toList = ds ++ ['\n'] ∧ ds.length = 10 ∧ ds.all isPyDigit = true)) :=
      fun hc => h (hiff.mpr hc)
    have herr : phoneInit s = Except.error "Phone number must be 10 digits long" := by
      unfold phoneInit; rw [if_neg h]
    refine ⟨⟨fun hv => ?_, fun hc => absurd hc hncond⟩, fun v hv => ?_, fun _ => herr⟩
    · obtain ⟨v, hv⟩ := hv
      rw [herr] at hv
      exact Except.noConfusion hv
    · rw [herr] at hv
      exact Except.noConfusion hv

/-- C1 witness: instantiating the amended theorem at a plain ten-digit
string. -/
theorem phone_validation_amended_witness :
    phoneInit "1234567890" = Except.ok "1234567890" := by
  obtain ⟨h1, h2, _⟩ := phone_validation_amended "1234567890"
  obtain ⟨v, hv⟩ := h1.mpr (Or.inl (by decide))
  have hs := h2 v hv
  rw [hs] at hv
  exact hv

/-! ## `edit_phone` ordering (claim C2) -/

/-- C2, counterexample: with phones added in the order "1234567890" then
"5555555555", `edit_phone("1234567890","1112223333")` does not leave
`["1112223333", "5555555555"]`: the edited phone is not replaced in place. -/
theorem edit_phone_order_counterexample :
    recordInit "John" = Except.ok johnStart ∧
    birthdayInit "10.08.1990" = Except.ok ⟨1990, 8, 10⟩ ∧
    johnRec.phones = ["1234567890", "5555555555"] ∧
    johnEdited.phones ≠ ["1112223333", "5555555555"] := by
  refine ⟨by decide, by decide, by decide, by decide⟩

/-- C2 (amended): `edit_phone` removes the matched phone and appends the
validated new phone at the end, so the list becomes
`["5555555555", "1112223333"]`: the count is preserved but the edited phone
moves to the end of the list. -/
theorem edit_phone_order_amended :
    johnEdited.phones = ["5555555555", "1112223333"] ∧
    johnEdited.phones.length = johnRec.phones.length ∧
    (johnRec.edit_phone "1234567890" "1112223333").1 = Except.ok () := by
  refine ⟨by decide, by decide, by decide⟩

/-! ## Feb-29 rollover (claim C9) -/

/-- C9: a stored February 29 birthday whose `replace(year=...)` lands in a
non-leap year makes `get_upcoming_birthdays` raise (`ValueError` from
`date.replace`) instead of returning a list. -/
theorem feb29_rollover_raises :
    isLeap 2023 = false ∧
    get_upcoming_birthdays ⟨2023, 3, 1⟩ [("Ann", ⟨"Ann", [], some ⟨2020, 2, 29⟩⟩)] =
      Except.error "day is out of range for month" := by
  refine ⟨by decide, by decide⟩

/-! ## Error conversion by the handlers (claim C6) -/

lemma input_error_converts (body : HandlerBody) : convertsErrors (input_error body) body := by
  intro args book
  constructor
  · intro s b h
    unfold input_error
    rw [h]
  · intro e b h
    unfold input_error
    rw [h]

/-- C6: each of the seven command handlers returns a plain string for every
argument list and book; whatever error its body raises is converted into the
error's textual message and returned as the result. -/
theorem handlers_never_raise (today : PyDate) :
    convertsErrors add addBody ∧
    convertsErrors change changeBody ∧
    convertsErrors phone phoneBody ∧
    convertsErrors all_contacts all_contactsBody ∧
    convertsErrors add_birthday add_birthdayBody ∧
    convertsErrors show_birthday show_birthdayBody ∧
    convertsErrors (birthdays today) (birthdaysBody today) :=
  ⟨input_error_converts addBody, input_error_converts changeBody,
    input_error_converts phoneBody, input_error_converts all_contactsBody,
    input_error_converts add_birthdayBody, input_error_converts show_birthdayBody,
    input_error_converts (birthdaysBody today)⟩

/-- C6 witness: a normal result and a converted raised error, both through
the wrapped handlers. -/
theorem handlers_never_raise_witness :
    add ["John"] [] = ("Usage: add [name] [phone]", []) ∧
    birthdays ⟨2023, 3, 1⟩ [] [("Ann", ⟨"Ann", [], some ⟨2020, 2, 29⟩⟩)] =
      ("day is out of range for month", [("Ann", ⟨"Ann", [], some ⟨2020, 2, 29⟩⟩)]) := by
  constructor
  · exact (((handlers_never_raise ⟨2023, 3, 1⟩).1 ["John"] []).1
      "Usage: add [name] [phone]" [] (by decide))
  · exact (((handlers_never_raise ⟨2023, 3, 1⟩).2.2.2.2.2.2 []
      [("Ann", ⟨"Ann", [], some ⟨2020, 2, 29⟩⟩)]).2
      "day is out of range for month" [("Ann", ⟨"Ann", [], some ⟨2020, 2, 29⟩⟩)] (by decide))

/-! ## Arity handling of `add` (claims C7, C10) -/

/-- C7, counterexample: with three arguments the `add` handler does not
return the usage message (the `len(args) < 2` guard passes three arguments on
to the 2-tuple unpacking, which raises). -/
theorem add_usage_counterexample :
    add ["a", "b", "c"] [] ≠ ("Usage: add [name] [phone]", []) := by
  decide

/-- C7 (amended): with fewer than two arguments `add` returns the usage
message; with more than two it returns the tuple-unpacking error message; in
both cases the book is unchanged. -/
theorem add_arity_amended (args : List String) (book : Book) (h : args.length ≠ 2) :
    (args.length < 2 → add args book = ("Usage: add [name] [phone]", book)) ∧
    (2 < args.length → add args book = ("too many values to unpack (expected 2)", book)) := by
  match args with
  | [] => exact ⟨fun _ => rfl, fun h2 => absurd h2 (by simp)⟩
  | [a] => exact ⟨fun _ => rfl, fun h2 => absurd h2 (by simp)⟩
  | [a, b] => exact absurd rfl h
  | a :: b :: c :: rest =>
    refine ⟨fun h2 => absurd h2 (by simp), fun _ => ?_⟩
    show input_error addBody (a :: b :: c :: rest) book = _
    unfold input_error addBody
    have hlen : ¬((a :: b :: c :: rest).length < 2) := by simp
    rw [if_neg hlen]

/-- C7 witness: both arity regimes at concrete inputs. -/
theorem add_arity_amended_witness :
    add [] [] = ("Usage: add [name] [phone]", []) ∧
    add ["a", "b", "c"] [] = ("too many values to unpack (expected 2)", []) :=
  ⟨(add_arity_amended [] [] (by decide)).1 (by decide),
    (add_arity_amended ["a", "b", "c"] [] (by decide)).2 (by decide)⟩

/-- C10: calling `add` with a name and an invalid phone returns the phone
validation message and leaves the book exactly as it was, whether or not the
name already exists (the `Phone` constructor raises before any mutation). -/
theorem add_invalid_phone_atomic (book : Book) (n p : String)
    (hn : n ≠ "") (hp : matchTenDigits p.toList = false) :
    add [n, p] book = ("Phone number must be 10 digits long", book) := by
  have hperr : phoneInit p = Except.error "Phone number must be 10 digits long" := by
    unfold phoneInit
    rw [if_neg (by rw [hp]; exact Bool.false_ne_true)]
  have haddp : ∀ r : Record,
      r.add_phone p = (Except.error "Phone number must be 10 digits long", r) := by
    intro r
    unfold Record.add_phone
    rw [hperr]
  have hrec : recordInit n = Except.ok ⟨n, [], none⟩ := by
    unfold recordInit
    rw [if_neg hn]
  show input_error addBody [n, p] book = _
  cases hf : find book n with
  | some r => simp only [input_error, addBody, hf, haddp r]
  | none => simp only [input_error, addBody, hf, hrec, haddp ⟨n, [], none⟩]

/-- C10 witness: an invalid phone against an empty book and against a book
already holding the name. -/
theorem add_invalid_phone_atomic_witness :
    add ["John", "123"] [] = ("Phone number must be 10 digits long", []) ∧
    add ["John", "123"] [("John", ⟨"John", ["1234567890"], none⟩)] =
      ("Phone number must be 10 digits long", [("John", ⟨"John", ["1234567890"], none⟩)]) :=
  ⟨add_invalid_phone_atomic [] "John" "123" (by decide) (by decide),
    add_invalid_phone_atomic [("John", ⟨"John", ["1234567890"], none⟩)] "John" "123"
      (by decide) (by decide)⟩

/-! ## Dictionary lemmas for the address book -/

lemma find_dictSet_self (book : Book) (k : String) (r : Record) :
    find (dictSet book k r) k = some r := by
  induction book with
  | nil => simp [dictSet, find]
  | cons kv rest ih =>
    obtain ⟨k', r'⟩ := kv
    by_cases h : k' = k
    · subst h
      simp [dictSet, find]
    · simp [dictSet, find, h, ih]

lemma mem_keys_of_find {book : Book} {n : String} {r : Record}
    (h : find book n = some r) : n ∈ keys book := by
  induction book with
  | nil => simp [find] at h
  | cons kv rest ih =>
    obtain ⟨k', r'⟩ := kv
    by_cases hk : k' = n
    · subst hk
      simp [keys]
    · rw [show find ((k', r') :: rest) n = find rest n by simp [find, hk]] at h
      simpa [keys] using Or.inr (ih h)

lemma find_none_iff {book : Book} {n : String} :
    find book n = none ↔ n ∉ keys book := by
  induction book with
  | nil => simp [find, keys]
  | cons kv rest ih =>
    obtain ⟨k', r'⟩ := kv
    by_cases hk : k' = n
    · subst hk
      simp [find, keys]
    · simp [find, hk, keys, ih, Ne.symm hk]

lemma keys_dictSet (book : Book) (k : String) (r : Record) :
    keys (dictSet book k r) = if k ∈ keys book then keys book else keys book ++ [k] := by
  induction book with
  | nil => simp [dictSet, keys]
  | cons kv rest ih =>
    obtain ⟨k', r'⟩ := kv
    by_cases h : k' = k
    · subst h
      simp [dictSet, keys]
    · simp only [dictSet, if_neg h, keys, List.map_cons, List.cons_append]
      simp only [keys] at ih
      rw [ih]
      by_cases hm : k ∈ List.map Prod.fst rest
      · rw [if_pos hm, if_pos (by simp [hm])]
      · rw [if_neg hm, if_neg (by simp [hm, Ne.symm h])]

lemma nodup_keys_dictSet {book : Book} (k : String) (r : Record)
    (h : (keys book).Nodup) : (keys (dictSet book k r)).Nodup := by
  rw [keys_dictSet]
  by_cases hm : k ∈ keys book
  · rwa [if_pos hm]
  · rw [if_neg hm]
    simpa [List.nodup_append] using ⟨h, hm⟩

lemma length_dictSet_of_mem {book : Book} {k : String} (r : Record)
    (h : k ∈ keys book) : (dictSet book k r).length = book.length := by
  induction book with
  | nil => simp [keys] at h
  | cons kv rest ih =>
    obtain ⟨k', r'⟩ := kv
    by_cases hk : k' = k
    · subst hk
      simp [dictSet]
    · have hm : k ∈ keys rest := by
        simpa [keys, Ne.symm hk] using h
      simp [dictSet, hk, ih hm]

/-! ## Handler-level `add` merges, book-level `add_record` replaces (claim C5) -/

/-- C5: calling the `add` handler twice with the same name and two valid
phones leaves a single record under that key, holding the previous phone
list with both phones appended; by contrast `add_record` with a record whose
name already exists replaces the stored record wholesale (same key count,
the new record's phones, no merge). -/
theorem add_handler_merges_add_record_replaces (book : Book) (n p1 p2 : String)
    (hu : (keys book).Nodup) (hn : n ≠ "")
    (h1 : matchTenDigits p1.toList = true) (h2 : matchTenDigits p2.toList = true)
    (_hp : p1 ≠ p2) :
    (∃ r, find (add [n, p2] (add [n, p1] book).2).2 n = some r ∧
       r.phones = (match find book n with
         | some r0 => r0.phones
         | none => []) ++ [p1, p2] ∧
       (keys (add [n, p2] (add [n, p1] book).2).2).count n = 1) ∧
    (∀ r' : Record, r'.name = n → find book n ≠ none →
       find (add_record book r') n = some r' ∧
       (add_record book r').length = book.length) := by
  have hp1ok : phoneInit p1 = Except.ok p1 := by
    unfold phoneInit; rw [if_pos h1]
  have hp2ok : phoneInit p2 = Except.ok p2 := by
    unfold phoneInit; rw [if_pos h2]
  have haddp1 : ∀ r : Record,
      r.add_phone p1 = (Except.ok (), { r with phones := r.phones ++ [p1] }) := by
    intro r; unfold Record.add_phone; rw [hp1ok]
  have haddp2 : ∀ r : Record,
      r.add_phone p2 = (Except.ok (), { r with phones := r.phones ++ [p2] }) := by
    intro r; unfold Record.add_phone; rw [hp2ok]
  constructor
  · cases hf : find book n with
    | some r =>
      have hm : n ∈ keys book := mem_keys_of_find hf
      have e1 : (add [n, p1] book).2 = dictSet book n { r with phones := r.phones ++ [p1] } := by
        show (input_error addBody [n, p1] book).2 = _
        simp only [input_error, addBody, hf, haddp1 r]
      have hf1 : find (add [n, p1] book).2 n = some { r with phones := r.phones ++ [p1] } := by
        rw [e1]; exact find_dictSet_self book n _
      have e2 : (add [n, p2] (add [n, p1] book).2).2 =
          dictSet (add [n, p1] book).2 n
            { r with phones := (r.phones ++ [p1]) ++ [p2] } := by
        show (input_error addBody [n, p2] (add [n, p1] book).2).2 = _
        simp only [input_error, addBody, hf1, haddp2]
      refine ⟨{ r with phones := (r.phones ++ [p1]) ++ [p2] }, ?_, ?_, ?_⟩
      · rw [e2]; exact find_dictSet_self _ n _
      · simp [List.append_assoc]
      · rw [e2, keys_dictSet, e1, keys_dictSet, if_pos hm, if_pos hm]
        exact List.count_eq_one_of_mem hu hm
    | none =>
      have hm : n ∉ keys book := find_none_iff.mp hf
      have hrec : recordInit n = Except.ok ⟨n, [], none⟩ := by
        unfold recordInit; rw [if_neg hn]
      have e1 : (add [n, p1] book).2 = dictSet book n ⟨n, [p1], none⟩ := by
        show (input_error addBody [n, p1] book).2 = _
        simp only [input_error, addBody, hf, hrec, haddp1 ⟨n, [], none⟩, add_record,
          List.nil_append]
      have hf1 : find (add [n, p1] book).2 n = some ⟨n, [p1], none⟩ := by
        rw [e1]; exact find_dictSet_self book n _
      have e2 : (add [n, p2] (add [n, p1] book).2).2 =
          dictSet (add [n, p1] book).2 n ⟨n, [p1, p2], none⟩ := by
        show (input_error addBody [n, p2] (add [n, p1] book).2).2 = _
        simp only [input_error, addBody, hf1, haddp2, List.singleton_append]
      have hkeys1 : keys (add [n, p1] book).2 = keys book ++ [n] := by
        rw [e1, keys_dictSet, if_neg hm]
      have hm1 : n ∈ keys (add [n, p1] book).2 := by
        rw [hkeys1]; simp
      have hnd1 : (keys (add [n, p1] book).2).Nodup := by
        rw [hkeys1]
        simpa [List.nodup_append] using ⟨hu, hm⟩
      refine ⟨⟨n, [p1, p2], none⟩, ?_, ?_, ?_⟩
      · rw [e2]; exact find_dictSet_self _ n _
      · simp
      · rw [e2, keys_dictSet, if_pos hm1]
        exact List.count_eq_one_of_mem hnd1 hm1
  · intro r' hname hex
    have hm : n ∈ keys book := by
      cases hfind : find book n with
      | some r0 => exact mem_keys_of_find hfind
      | none => exact absurd hfind hex
    constructor
    · show find (dictSet book r'.name r') n = some r'
      rw [hname]
      exact find_dictSet_self book n r'
    · show (dictSet book r'.name r').length = book.length
      rw [hname]
      exact length_dictSet_of_mem r' hm

/-- C5 witness: concrete run against the empty book, plus the replace
behaviour against the resulting one-record book. -/
theorem add_handler_merges_witness :
    (∃ r, find (add ["John", "5555555555"] (add ["John", "1234567890"] []).2).2 "John" =
        some r ∧
      r.phones = (match find ([] : Book) "John" with
        | some r0 => r0.phones
        | none => []) ++ ["1234567890", "5555555555"] ∧
      (keys (add ["John", "5555555555"] (add ["John", "1234567890"] []).2).2).count "John" = 1) ∧
    (∀ r' : Record, r'.name = "John" →
       find [("John", ⟨"John", ["1234567890"], none⟩)] "John" ≠ none →
       find (add_record [("John", ⟨"John", ["1234567890"], none⟩)] r') "John" = some r' ∧
       (add_record [("John", ⟨"John", ["1234567890"], none⟩)] r').length =
         ([("John", ⟨"John", ["1234567890"], none⟩)] : Book).length) :=
  ⟨(add_handler_merges_add_record_replaces [] "John" "1234567890" "5555555555"
      (by decide) (by decide) (by decide) (by decide) (by decide)).1,
    (add_handler_merges_add_record_replaces [("John", ⟨"John", ["1234567890"], none⟩)]
      "John" "1234567890" "5555555555"
      (by decide) (by decide) (by decide) (by decide) (by decide)).2⟩

/-! ## Name/key invariant over all reachable states (claim C8) -/

lemma invB_dictSet {book : Book} {k : String} {r : Record}
    (h : InvB book = true) (hr : r.name = k) : InvB (dictSet book k r) = true := by
  induction book with
  | nil => simp [dictSet, InvB, hr]
  | cons kv rest ih =>
    obtain ⟨k', r'⟩ := kv
    simp only [InvB, List.all_cons, Bool.and_eq_true] at h
    by_cases hk : k' = k
    · subst hk
      simp [dictSet, InvB, hr, h.2]
    · have := ih h.2
      simp [dictSet, hk, InvB, h.1, this]
      simpa [InvB] using this

lemma invB_delete {book : Book} (n : String) (h : InvB book = true) :
    InvB (delete book n) = true := by
  induction book with
  | nil => simp [delete, InvB]
  | cons kv rest ih =>
    obtain ⟨k', r'⟩ := kv
    simp only [InvB, List.all_cons, Bool.and_eq_true] at h
    by_cases hk : k' = n
    · subst hk
      simpa [delete, InvB] using h.2
    · have := ih h.2
      simp [delete, hk, InvB, h.1]
      simpa [InvB] using this

lemma invB_find {book : Book} {n : String} {r : Record}
    (h : InvB book = true) (hf : find book n = some r) : r.name = n := by
  induction book with
  | nil => simp [find] at hf
  | cons kv rest ih =>
    obtain ⟨k', r'⟩ := kv
    simp only [InvB, List.all_cons, Bool.and_eq_true, beq_iff_eq] at h
    by_cases hk : k' = n
    · subst hk
      rw [show find ((k', r') :: rest) k' = some r' by simp [find]] at hf
      injection hf with h'
      subst h'
      exact h.1
    · rw [show find ((k', r') :: rest) n = find rest n by simp [find, hk]] at hf
      exact ih (by simpa [InvB] using h.2) hf

lemma add_phone_name (r : Record) (p : String) : ((r.add_phone p).2).name = r.name := by
  unfold Record.add_phone
  cases phoneInit p <;> rfl

lemma edit_phone_name (r : Record) (o np : String) :
    ((r.edit_phone o np).2).name = r.name := by
  unfold Record.edit_phone
  by_cases h : r.phones.contains o = true
  · rw [if_pos h]
    exact add_phone_name _ np
  · rw [if_neg h]

lemma invB_hAdd (args : List String) {book : Book} (h : InvB book = true) :
    InvB (add args book).2 = true := by
  match args with
  | [] => exact h
  | [a] => exact h
  | [name, p] =>
    show InvB (input_error addBody [name, p] book).2 = true
    cases hf : find book name with
    | some r =>
      cases hph : r.add_phone p with
      | mk res r' =>
        cases res with
        | ok u =>
          simp only [input_error, addBody, hf, hph]
          have hname : r'.name = name := by
            have := add_phone_name r p
            rw [hph] at this
            exact this.trans (invB_find h hf)
          exact invB_dictSet h hname
        | error e =>
          simp only [input_error, addBody, hf, hph]
          exact h
    | none =>
      by_cases hname : name = ""
      · subst hname
        simp only [input_error, addBody, hf, recordInit, if_pos rfl]
        exact h
      · have hrec : recordInit name = Except.ok ⟨name, [], none⟩ := by
          unfold recordInit; rw [if_neg hname]
        cases hph : Record.add_phone ⟨name, [], none⟩ p with
        | mk res r' =>
          cases res with
          | ok u =>
            simp only [input_error, addBody, hf, hrec, hph]
            have hname' : r'.name = name := by
              have := add_phone_name ⟨name, [], none⟩ p
              rw [hph] at this
              exact this
            show InvB (dictSet book r'.name r') = true
            rw [hname']
            exact invB_dictSet h hname'
          | error e =>
            simp only [input_error, addBody, hf, hrec, hph]
            exact h
  | a :: b :: c :: rest =>
    show InvB (input_error addBody (a :: b :: c :: rest) book).2 = true
    unfold input_error addBody
    rw [if_neg (by simp)]
    exact h

lemma invB_hChange (args : List String) {book : Book} (h : InvB book = true) :
    InvB (change args book).2 = true := by
  match args with
  | [] => exact h
  | [a] => exact h
  | [a, b] => exact h
  | [name, o, np] =>
    show InvB (input_error changeBody [name, o, np] book).2 = true
    cases hf : find book name with
    | some r =>
      cases hep : r.edit_phone o np with
      | mk res r' =>
        have hname : r'.name = name := by
          have := edit_phone_name r o np
          rw [hep] at this
          exact this.trans (invB_find h hf)
        cases res with
        | ok u =>
          simp only [input_error, changeBody, hf, hep]
          exact invB_dictSet h hname
        | error e =>
          simp only [input_error, changeBody, hf, hep]
          exact invB_dictSet h hname
    | none =>
      simp only [input_error, changeBody, hf]
      exact h
  | a :: b :: c :: d :: rest =>
    show InvB (input_error changeBody (a :: b :: c :: d :: rest) book).2 = true
    unfold input_error changeBody
    rw [if_neg (by simp)]
    exact h

lemma invB_hPhone (args : List String) {book : Book} (h : InvB book = true) :
    InvB (phone args book).2 = true := by
  match args with
  | [] => exact h
  | name :: rest =>
    show InvB (input_error phoneBody (name :: rest) book).2 = true
    cases hf : find book name with
    | some r => simp only [input_error, phoneBody, hf]; exact h
    | none => simp only [input_error, phoneBody, hf]; exact h

lemma invB_hAll (args : List String) {book : Book} (h : InvB book = true) :
    InvB (all_contacts args book).2 = true := h

lemma invB_hAddBirthday (args : List String) {book : Book} (h : InvB book = true) :
    InvB (add_birthday args book).2 = true := by
  match args with
  | [name, ds] =>
    show InvB (input_error add_birthdayBody [name, ds] book).2 = true
    cases hf : find book name with
    | some r =>
      cases hb : birthdayInit ds with
      | ok b =>
        simp only [input_error, add_birthdayBody, hf, hb]
        exact invB_dictSet h
          ((show (r.add_birthday b).name = r.name from rfl).trans (invB_find h hf))
      | error e =>
        simp only [input_error, add_birthdayBody, hf, hb]
        exact h
    | none =>
      simp only [input_error, add_birthdayBody, hf]
      exact h
  | [] =>
    show InvB (input_error add_birthdayBody [] book).2 = true
    unfold input_error add_birthdayBody
    rw [if_pos (by simp)]
    exact h
  | [a] =>
    show InvB (input_error add_birthdayBody [a] book).2 = true
    unfold input_error add_birthdayBody
    rw [if_pos (by simp)]
    exact h
  | a :: b :: c :: rest =>
    show InvB (input_error add_birthdayBody (a :: b :: c :: rest) book).2 = true
    unfold input_error add_birthdayBody
    rw [if_neg (by simp)]
    exact h

lemma invB_hShowBirthday (args : List String) {book : Book} (h : InvB book = true) :
    InvB (show_birthday args book).2 = true := by
  match args with
  | [] => exact h
  | name :: rest =>
    show InvB (input_error show_birthdayBody (name :: rest) book).2 = true
    cases hf : find book name with
    | some r => simp only [input_error, show_birthdayBody, hf]; exact h
    | none => simp only [input_error, show_birthdayBody, hf]; exact h

lemma invB_hBirthdays (today : PyDate) (args : List String) {book : Book}
    (h : InvB book = true) : InvB (birthdays today args book).2 = true := by
  show InvB (input_error (birthdaysBody today) args book).2 = true
  cases hg : get_upcoming_birthdays today book with
  | error e => simp only [input_error, birthdaysBody, hg]; exact h
  | ok entries =>
    cases entries with
    | nil => simp only [input_error, birthdaysBody, hg]; exact h
    | cons x xs => simp only [input_error, birthdaysBody, hg]; exact h

lemma invB_applyOp (book : Book) (op : Op) (h : InvB book = true) :
    InvB (applyOp book op) = true := by
  cases op with
  | addRec r => exact invB_dictSet h rfl
  | del n => exact invB_delete n h
  | doFind n => exact h
  | hAdd args => exact invB_hAdd args h
  | hChange args => exact invB_hChange args h
  | hPhone args => exact invB_hPhone args h
  | hAll args => exact invB_hAll args h
  | hAddBirthday args => exact invB_hAddBirthday args h
  | hShowBirthday args => exact invB_hShowBirthday args h
  | hBirthdays today args => exact invB_hBirthdays today args h

/-- C8: starting from any book satisfying the invariant (the empty book, or
a loaded book that was saved in such a state), every sequence of
`add_record` / `delete` / `find` / handler calls keeps every stored record's
name equal to the key it is stored under. -/
theorem book_key_invariant (b0 : Book) (ops : List Op) (h : InvB b0 = true) :
    InvB (ops.foldl applyOp b0) = true := by
  induction ops generalizing b0 with
  | nil => exact h
  | cons op rest ih => exact ih _ (invB_applyOp b0 op h)

/-- C8 witness: a concrete operation sequence from the empty book. -/
theorem book_key_invariant_witness :
    InvB (([Op.hAdd ["John", "1234567890"], Op.hAddBirthday ["John", "10.08.1990"],
        Op.hAdd ["Jane", "9876543210"], Op.del "Jane", Op.hChange ["John", "1234567890",
        "1112223333"]] : List Op).foldl applyOp []) = true :=
  book_key_invariant [] _ (by decide)

/-! ## The upcoming-birthday window (claim C3) -/

lemma dateNew_ok_of_valid {y m d : Nat} (h : validDate y m d = true) :
    dateNew y m d = Except.ok ⟨y, m, d⟩ := by
  simp only [validDate, Bool.and_eq_true, decide_eq_true_eq] at h
  unfold dateNew
  rw [if_neg (by omega), if_neg (by omega), if_neg (by omega)]

/-- C3: whenever the year replacements are representable, the method returns
exactly the records whose next birthday occurrence lies in the inclusive
window `[0, 6]` of days from today, each with its day offset — so a birthday
3 days away is selected with offset 3, one 8 days away is not selected, and
one today is selected with offset 0. -/
theorem get_upcoming_birthdays_window (today : PyDate) (book : Book)
    (h : okRollover today book = true) :
    get_upcoming_birthdays today book = Except.ok (specUpcomingList today book) := by
  induction book with
  | nil => rfl
  | cons kv rest ih =>
    obtain ⟨k, record⟩ := kv
    simp only [okRollover, List.all_cons, Bool.and_eq_true] at h
    have hrest : upcomingLoop today rest = Except.ok (specUpcomingList today rest) :=
      ih h.2
    show upcomingLoop today ((k, record) :: rest) = _
    cases hb : record.birthday with
    | none =>
      simp only [upcomingLoop, hb, hrest, specUpcomingList, List.filterMap_cons]
    | some b =>
      have hv := h.1
      rw [hb] at hv
      simp only [Bool.and_eq_true] at hv
      have e1 : dateReplaceYear b today.year = Except.ok ⟨today.year, b.month, b.day⟩ := by
        unfold dateReplaceYear
        exact dateNew_ok_of_valid hv.1
      have e2 : dateReplaceYear ⟨today.year, b.month, b.day⟩ (today.year + 1) =
          Except.ok ⟨today.year + 1, b.month, b.day⟩ := by
        unfold dateReplaceYear
        exact dateNew_ok_of_valid hv.2
      have e3 : (if dateLt ⟨today.year, b.month, b.day⟩ today then
            dateReplaceYear ⟨today.year, b.month, b.day⟩ (today.year + 1)
          else Except.ok ⟨today.year, b.month, b.day⟩) =
          Except.ok (specNextOccurrence today b) := by
        unfold specNextOccurrence
        cases dateLt ⟨today.year, b.month, b.day⟩ today
        · simp
        · simp [e2]
      have estep : upcomingLoop today ((k, record) :: rest) =
          if 0 ≤ specDaysUntil today b ∧ specDaysUntil today b ≤ 6 then
            Except.ok (⟨record.name, dateIso (specNextOccurrence today b),
              specDaysUntil today b⟩ :: specUpcomingList today rest)
          else Except.ok (specUpcomingList today rest) := by
        simp only [upcomingLoop, hb, e1, e3, hrest, specDaysUntil]
      have hspec : specUpcomingList today ((k, record) :: rest) =
          if 0 ≤ specDaysUntil today b ∧ specDaysUntil today b ≤ 6 then
            ⟨record.name, dateIso (specNextOccurrence today b), specDaysUntil today b⟩ ::
              specUpcomingList today rest
          else specUpcomingList today rest := by
        simp only [specUpcomingList, List.filterMap_cons, hb]
        split_ifs <;> rfl
      rw [estep, hspec]
      split_ifs <;> rfl

/-- C3 witness: a birthday exactly 3 days from today gives exactly one entry
with offset 3; one 8 days away gives no entry; one today gives offset 0. -/
theorem get_upcoming_birthdays_window_witness :
    get_upcoming_birthdays ⟨2024, 1, 10⟩ [("A", ⟨"A", [], some ⟨1990, 1, 13⟩⟩)] =
      Except.ok [⟨"A", "2024-01-13", 3⟩] ∧
    get_upcoming_birthdays ⟨2024, 1, 10⟩ [("B", ⟨"B", [], some ⟨1990, 1, 18⟩⟩)] =
      Except.ok [] ∧
    get_upcoming_birthdays ⟨2024, 1, 10⟩ [("C", ⟨"C", [], some ⟨1990, 1, 10⟩⟩)] =
      Except.ok [⟨"C", "2024-01-10", 0⟩] := by
  refine ⟨?_, ?_, ?_⟩ <;>
    rw [get_upcoming_birthdays_window _ _ (by decide)] <;> decide

/-! ## Birthday parsing and rendering (claim C4) -/

lemma digv_digitChar {k : Nat} (hk : k ≤ 9) : digv (digitChar k) = k := by
  interval_cases k <;> rfl

lemma isPyDigit_digitChar {k : Nat} (hk : k ≤ 9) : isPyDigit (digitChar k) = true := by
  interval_cases k <;> rfl

lemma digitChar_eq_zero {k : Nat} (hk : k ≤ 9) : (digitChar k = '0') ↔ k = 0 := by
  interval_cases k <;> decide

lemma digitChar_eq_one {k : Nat} (hk : k ≤ 9) : (digitChar k = '1') ↔ k = 1 := by
  interval_cases k <;> decide

lemma digitChar_eq_two {k : Nat} (hk : k ≤ 9) : (digitChar k = '2') ↔ k = 2 := by
  interval_cases k <;> decide

lemma digitChar_eq_three {k : Nat} (hk : k ≤ 9) : (digitChar k = '3') ↔ k = 3 := by
  interval_cases k <;> decide

lemma digitChar_between {k : Nat} (hk : k ≤ 9) :
    ('1' ≤ digitChar k ∧ digitChar k ≤ '9') ↔ 1 ≤ k := by
  interval_cases k <;> decide

lemma digitChar_ne_dot {k : Nat} (hk : k ≤ 9) : ¬(digitChar k = '.') := by
  interval_cases k <;> decide

lemma dayAlts_pad2 (d : Nat) (hd : d ≤ 99) (cs : List Char) :
    dayAlts (pad2c d ++ cs) =
      (if 1 ≤ d ∧ d ≤ 31 then [(d, cs)] else []) ++
      (if 10 ≤ d then [(d / 10, digitChar (d % 10) :: cs)] else []) := by
  have ha : d / 10 ≤ 9 := by omega
  have hb : d % 10 ≤ 9 := by omega
  show dayAlts (digitChar (d / 10) :: digitChar (d % 10) :: cs) = _
  simp only [dayAlts, digitChar_eq_three ha, digitChar_eq_zero hb, digitChar_eq_one hb,
    digitChar_eq_one ha, digitChar_eq_two ha, digitChar_eq_zero ha, isPyDigit_digitChar hb,
    digitChar_between ha, digitChar_between hb, digv_digitChar ha, digv_digitChar hb, and_true]
  split_ifs <;>
    first
      | rfl
      | omega
      | (simp only [List.nil_append, List.append_nil, List.cons_append, List.cons.injEq,
          Prod.mk.injEq, and_true, List.singleton_inj]
         omega)

lemma monthAlts_pad2 (m : Nat) (hm : m ≤ 99) (cs : List Char) :
    monthAlts (pad2c m ++ cs) =
      (if 1 ≤ m ∧ m ≤ 12 then [(m, cs)] else []) ++
      (if 10 ≤ m then [(m / 10, digitChar (m % 10) :: cs)] else []) := by
  have ha : m / 10 ≤ 9 := by omega
  have hb : m % 10 ≤ 9 := by omega
  show monthAlts (digitChar (m / 10) :: digitChar (m % 10) :: cs) = _
  simp only [monthAlts, digitChar_eq_zero hb, digitChar_eq_one hb, digitChar_eq_two hb,
    digitChar_eq_one ha, digitChar_eq_zero ha, digitChar_between ha, digitChar_between hb,
    digv_digitChar ha, digv_digitChar hb, and_true]
  split_ifs <;>
    first
      | rfl
      | omega
      | (simp only [List.nil_append, List.append_nil, List.cons_append, List.cons.injEq,
          Prod.mk.injEq, and_true, List.singleton_inj]
         omega)

lemma yearNum_pad4 (y : Nat) (hy : y ≤ 9999) : yearNum (pad4c y) = some y := by
  have h1 : y / 1000 ≤ 9 := by omega
  have h2 : y / 100 % 10 ≤ 9 := by omega
  have h3 : y / 10 % 10 ≤ 9 := by omega
  have h4 : y % 10 ≤ 9 := by omega
  show yearNum [digitChar (y / 1000), digitChar (y / 100 % 10), digitChar (y / 10 % 10),
    digitChar (y % 10)] = some y
  simp only [yearNum, isPyDigit_digitChar h1, isPyDigit_digitChar h2, isPyDigit_digitChar h3,
    isPyDigit_digitChar h4, digv_digitChar h1, digv_digitChar h2, digv_digitChar h3,
    digv_digitChar h4, and_self, if_true]
  congr 1
  omega

lemma parseY_pad (d m y : Nat) (hy : y ≤ 9999) :
    parseY d m ('.' :: pad4c y) = some (d, m, y) := by
  simp [parseY, yearNum_pad4 y hy]

lemma parseY_not_dot (d m : Nat) {c : Char} (hc : ¬(c = '.')) (cs : List Char) :
    parseY d m (c :: cs) = none := by
  simp [parseY, hc]

lemma parseYM_not_dot (d : Nat) {c : Char} (hc : ¬(c = '.')) (cs : List Char) :
    parseYM d (c :: cs) = none := by
  simp [parseYM, hc]

lemma parseYM_pad (d m y : Nat) (hm : m ≤ 99) (hy : y ≤ 9999) :
    parseYM d ('.' :: (pad2c m ++ '.' :: pad4c y)) =
      (if 1 ≤ m ∧ m ≤ 12 then some (d, m, y) else none) := by
  have hb : m % 10 ≤ 9 := by omega
  show (if ('.' : Char) = '.' then
      firstSome (fun pm => parseY d pm.1 pm.2) (monthAlts (pad2c m ++ '.' :: pad4c y))
    else none) = _
  rw [if_pos rfl, monthAlts_pad2 m hm]
  by_cases h1 : 1 ≤ m ∧ m ≤ 12
  · rw [if_pos h1]
    by_cases h2 : 10 ≤ m
    · rw [if_pos h2]
      simp only [List.cons_append, List.nil_append, firstSome, parseY_pad d m y hy]
      rw [if_pos h1]
    · rw [if_neg h2]
      simp only [List.cons_append, List.nil_append, firstSome, parseY_pad d m y hy]
      rw [if_pos h1]
  · rw [if_neg h1]
    by_cases h2 : 10 ≤ m
    · rw [if_pos h2]
      simp only [List.nil_append, firstSome,
        parseY_not_dot d (m / 10) (digitChar_ne_dot hb) ('.' :: pad4c y)]
      rw [if_neg h1]
    · rw [if_neg h2]
      simp only [List.nil_append, firstSome]
      rw [if_neg h1]

lemma parse_pad (d m y : Nat) (hd : d ≤ 99) (hm : m ≤ 99) (hy : y ≤ 9999) :
    parseDMY (dmyString d m y) =
      (if (1 ≤ d ∧ d ≤ 31) ∧ (1 ≤ m ∧ m ≤ 12) then some (d, m, y) else none) := by
  have hb : d % 10 ≤ 9 := by omega
  show firstSome (fun pd => parseYM pd.1 pd.2)
    (dayAlts (pad2c d ++ '.' :: (pad2c m ++ '.' :: pad4c y))) = _
  rw [dayAlts_pad2 d hd]
  by_cases h1 : 1 ≤ d ∧ d ≤ 31
  · rw [if_pos h1]
    by_cases h2 : 10 ≤ d
    · rw [if_pos h2]
      simp only [List.cons_append, List.nil_append, firstSome, parseYM_pad d m y hm hy,
        parseYM_not_dot d (digitChar_ne_dot hb)]
      by_cases h3 : 1 ≤ m ∧ m ≤ 12
      · rw [if_pos h3, if_pos (And.intro h1 h3)]
      · rw [if_neg h3,
          if_neg (show ¬((1 ≤ d ∧ d ≤ 31) ∧ (1 ≤ m ∧ m ≤ 12)) from fun hc => h3 hc.2)]
        simp only [firstSome, parseYM_not_dot (d / 10) (digitChar_ne_dot hb)]
    · rw [if_neg h2]
      simp only [List.append_nil, firstSome, parseYM_pad d m y hm hy]
      by_cases h3 : 1 ≤ m ∧ m ≤ 12
      · rw [if_pos h3, if_pos (And.intro h1 h3)]
      · rw [if_neg h3,
          if_neg (show ¬((1 ≤ d ∧ d ≤ 31) ∧ (1 ≤ m ∧ m ≤ 12)) from fun hc => h3 hc.2)]
  · rw [if_neg h1]
    have hrhs : ¬((1 ≤ d ∧ d ≤ 31) ∧ (1 ≤ m ∧ m ≤ 12)) := fun hc => h1 hc.1
    by_cases h2 : 10 ≤ d
    · rw [if_pos h2]
      simp only [List.nil_append, firstSome, parseYM_not_dot (d / 10) (digitChar_ne_dot hb)]
      rw [if_neg hrhs]
    · rw [if_neg h2]
      simp only [List.nil_append, firstSome]
      rw [if_neg hrhs]

lemma daysInMonth_le (y m : Nat) : daysInMonth y m ≤ 31 := by
  unfold daysInMonth
  split_ifs <;> omega

lemma dateNew_error_of_invalid {y m d : Nat} (h : validDate y m d = false) :
    ∃ e, dateNew y m d = Except.error e := by
  unfold dateNew
  split_ifs with h1 h2 h3
  · exact ⟨_, rfl⟩
  · exact ⟨_, rfl⟩
  · exact ⟨_, rfl⟩
  · exfalso
    have : validDate y m d = true := by
      simp only [validDate, Bool.and_eq_true, decide_eq_true_eq]

      omega
    rw [h] at this
    exact Bool.false_ne_true this

/-- C4: for every string of the exact shape `DD.MM.YYYY` (every such string
is `dmyString d m y` for unique `d ≤ 99`, `m ≤ 99`, `y ≤ 9999`): when the
values name a real calendar date, `Birthday` construction succeeds with that
date and rendering reproduces the string character for character; otherwise
construction fails with the `ValidationError` message. -/
theorem birthday_roundtrip (d m y : Nat) (hd : d ≤ 99) (hm : m ≤ 99) (hy : y ≤ 9999) :
    (validDate y m d = true →
      birthdayInit (dmyString d m y) = Except.ok ⟨y, m, d⟩ ∧
      renderDMY ⟨y, m, d⟩ = dmyString d m y) ∧
    (validDate y m d = false →
      birthdayInit (dmyString d m y) = Except.error "Invalid date format. Use DD.MM.YYYY") := by
  constructor
  · intro hv
    have hwin : (1 ≤ d ∧ d ≤ 31) ∧ (1 ≤ m ∧ m ≤ 12) := by
      have hle := daysInMonth_le y m
      simp only [validDate, Bool.and_eq_true, decide_eq_true_eq] at hv
      omega
    have hp : parseDMY (dmyString d m y) = some (d, m, y) := by
      rw [parse_pad d m y hd hm hy, if_pos hwin]
    constructor
    · simp only [birthdayInit, hp, dateNew_ok_of_valid hv]
    · rfl
  · intro hv
    by_cases hwin : (1 ≤ d ∧ d ≤ 31) ∧ (1 ≤ m ∧ m ≤ 12)
    · have hp : parseDMY (dmyString d m y) = some (d, m, y) := by
        rw [parse_pad d m y hd hm hy, if_pos hwin]
      obtain ⟨e, he⟩ := dateNew_error_of_invalid hv
      simp only [birthdayInit, hp, he]
    · have hp : parseDMY (dmyString d m y) = none := by
        rw [parse_pad d m y hd hm hy, if_neg hwin]
      simp only [birthdayInit, hp]

/-- C4 witness: `"10.08.1990"` round-trips; `"31.02.2020"` (day 31 in
February) fails. -/
theorem birthday_roundtrip_witness :
    dmyString 10 8 1990 = "10.08.1990" ∧
    birthdayInit (dmyString 10 8 1990) = Except.ok ⟨1990, 8, 10⟩ ∧
    renderDMY ⟨1990, 8, 10⟩ = dmyString 10 8 1990 ∧
    dmyString 31 2 2020 = "31.02.2020" ∧
    birthdayInit (dmyString 31 2 2020) = Except.error "Invalid date format. Use DD.MM.YYYY" := by
  have h1 := (birthday_roundtrip 10 8 1990 (by decide) (by decide) (by decide)).1 (by decide)
  have h2 := (birthday_roundtrip 31 2 2020 (by decide) (by decide) (by decide)).2 (by decide)
  exact ⟨by decide, h1.1, h1.2, by decide, h2⟩

end HW01
